import Mathlib

/-!
Shallow embedding of the quiz-progress engine of `src/web/app.js`:
grader, state store (primary/backup persistence slots), mode controller
and merge engine.  JS values are modelled as follows: an absent or
non-finite JS field is `Option.none`; a JS object used as a string-keyed
map is an association list with unique keys; `Date.now()` is passed
explicitly as a `now : Nat` argument; timestamps are `Nat` after the
source's `Number(x || 0)` coercion.
-/

namespace QuizApp

/-- A submitted response value as the app stores it: a string
(single/judge/blank), an array of option letters (multiple), or a
nullish value. -/
inductive Response where
  | str (s : String)
  | arr (l : List String)
  | nullish
deriving DecidableEq, Repr

/-- JS `String(v ?? '')` applied to a response value; `String` of a JS
array joins its elements with commas. -/
def jsToString : Response → String
  | .str s => s
  | .arr l => String.intercalate "," l
  | .nullish => ""

/-- The whitespace characters relevant to the source's `\s` and `trim`
(ASCII whitespace, no-break space and the full-width space U+3000). -/
def isJsWs (c : Char) : Bool :=
  c == ' ' || c == '\t' || c == '\n' || c == '\r' || c == '\u000B' ||
    c == '\u000C' || c == ' ' || c == '　'

/-- JS `String.prototype.trim`. -/
def jsTrim (s : String) : String :=
  String.mk (((s.toList.dropWhile isJsWs).reverse.dropWhile isJsWs).reverse)

/-- Collapses every run of whitespace to a single space, as the source's
`.replace(/\s+/g, ' ')` does; the flag records whether the previous kept
character came from a whitespace run. -/
def collapseWsAux : Bool → List Char → List Char
  | _, [] => []
  | prevWs, c :: rest =>
    if isJsWs c then
      (if prevWs then [] else [' ']) ++ collapseWsAux true rest
    else c :: collapseWsAux false rest

/-- `normalizeAnswerText` of the source: full-width space to space,
collapse whitespace runs to one space, trim the ends. -/
def normalizeAnswerText (s : String) : String :=
  let replaced := s.toList.map (fun c => if c = '　' then ' ' else c)
  let collapsed := collapseWsAux false replaced
  String.mk (((collapsed.dropWhile (· == ' ')).reverse.dropWhile (· == ' ')).reverse)

/-- `normalizeBlank` of the source: same conservative normalization. -/
def normalizeBlank (s : String) : String :=
  normalizeAnswerText s

/-- `sortLetters` of the source: uppercase, strip characters outside
`A`-`Z`, sort the remaining letters.  Duplicate letters are kept. -/
def sortLetters (s : String) : String :=
  String.mk
    (List.insertionSort (· ≤ ·)
      ((s.toList.map Char.toUpper).filter (fun c => decide ('A' ≤ c ∧ c ≤ 'Z'))))

/-- A question as the grader sees it; `grade` reads only `type` and
`answer`, the remaining fields mirror the bank's data model. -/
structure Question where
  type : String
  answer : Option String
  stem : String := ""
  options : List (String × String) := []
  explanation : Option String := none
  difficulty : Option String := none
deriving DecidableEq, Repr

/-- Truthiness test of the source's `if (!q.answer) return false`:
an absent answer or the empty string is falsy. -/
def jsFalsyAnswer : Option String → Bool
  | none => true
  | some s => decide (s = "")

/-- `grade` of the source: fail closed on a falsy answer, then compare
per question type. -/
def grade (q : Question) (response : Response) : Bool :=
  if jsFalsyAnswer q.answer then false
  else if q.type = "multiple" then
    let r := match response with
      | .arr l => String.join l
      | other => jsToString other
    decide (sortLetters r = sortLetters (q.answer.getD ""))
  else if q.type = "blank" then
    decide (normalizeBlank (jsToString response) = normalizeBlank (q.answer.getD ""))
  else
    decide ((jsTrim (jsToString response)).toUpper = (jsTrim (q.answer.getD "")).toUpper)

/-- An answer record `{ response, correct, ts }`.  `correct` is `none`
when the record lacks a correct flag; `ts` is `none` when the timestamp
is absent or non-numeric (the source coerces both to `0`). -/
structure AnswerRecord where
  response : Response
  correct : Option Bool
  ts : Option Nat
deriving DecidableEq, Repr

/-- The source's `Number(rec.ts || 0)` coercion of a record timestamp. -/
def tsNum (r : AnswerRecord) : Nat :=
  r.ts.getD 0

/-- `mergeAnswerRecord` of the source; `now` stands for the `Date.now()`
call in the wrong-union branch. -/
def mergeAnswerRecord (now : Nat) : Option AnswerRecord → Option AnswerRecord → Option AnswerRecord
  | none, incomingRec => incomingRec
  | some existingRec, none => some existingRec
  | some existingRec, some incomingRec =>
    let exWrong := decide (existingRec.correct = some false)
    let inWrong := decide (incomingRec.correct = some false)
    if exWrong || inWrong then
      some { response := (if exWrong then existingRec else incomingRec).response
             correct := some false
             ts := some (if max (tsNum existingRec) (tsNum incomingRec) = 0 then now
               else max (tsNum existingRec) (tsNum incomingRec)) }
    else if tsNum incomingRec ≥ tsNum existingRec then some incomingRec
    else some existingRec

/-- A quiz state; each field is `none` when the corresponding JS field is
absent (or, for the cursors, not a finite number, and for `questionIds`
and `answers`, not an array resp. not an object).  The answer map is an
association list with unique keys, as a JS object guarantees. -/
structure QuizState where
  version : Option Int
  mode : Option String
  currentIndexAll : Option Int
  currentIndexWrong : Option Int
  questionIds : Option (List String)
  answers : Option (List (String × AnswerRecord))
deriving DecidableEq, Repr

/-- `isValidState` of the source; the outer `Option` models a null or
undefined state value. -/
def isValidState : Option QuizState → Bool
  | none => false
  | some s => decide (s.version = some 1) && s.questionIds.isSome && s.answers.isSome

/-- Truthiness of a JS string field: present and non-empty. -/
def strTruthy : Option String → Bool
  | none => false
  | some s => decide (s ≠ "")

/-- Reading a key of a JS object modelled as an association list. -/
def lookupRec (l : List (String × AnswerRecord)) (k : String) : Option AnswerRecord :=
  (l.find? (fun p => decide (p.1 = k))).map Prod.snd

/-- Assigning a key of a JS object modelled as an association list: an
existing key is updated in place, a new key is appended. -/
def setRec (l : List (String × AnswerRecord)) (k : String) (v : AnswerRecord) :
    List (String × AnswerRecord) :=
  if l.any (fun p => decide (p.1 = k)) then
    l.map (fun p => if p.1 = k then (k, v) else p)
  else l ++ [(k, v)]

/-- The `questionIds` merge loop of `mergeStates`: keep the existing
order, append each incoming id not already present.  The source's `seen`
set always holds exactly the elements of the accumulator, so membership
in the accumulator models `seen.has(qid)`. -/
def mergeQuestionIds (existing incoming : List String) : List String :=
  incoming.foldl (fun acc qid => if qid ∈ acc then acc else acc ++ [qid]) existing

/-- The body of `mergeStates` once both sides passed `isValidState`.
`mergeAnswerRecord` always returns a record when its incoming argument
is one, so the `none` match arm is unreachable. -/
def mergeValidStates (now : Nat) (e i : QuizState) : QuizState :=
  let mergedQuestionIds := mergeQuestionIds (e.questionIds.getD []) (i.questionIds.getD [])
  let mergedAnswers := (i.answers.getD []).foldl
    (fun acc p =>
      match mergeAnswerRecord now (lookupRec acc p.1) (some p.2) with
      | some r => setRec acc p.1 r
      | none => acc)
    (e.answers.getD [])
  { version := some 1
    mode := if strTruthy e.mode then e.mode else if strTruthy i.mode then i.mode else some "all"
    currentIndexAll := match e.currentIndexAll with
      | some n => some n
      | none => some (i.currentIndexAll.getD 0)
    currentIndexWrong := match e.currentIndexWrong with
      | some n => some n
      | none => some (i.currentIndexWrong.getD 0)
    questionIds := some mergedQuestionIds
    answers := some mergedAnswers }

/-- An all-absent placeholder state; never selected by `mergeStates`,
because a null side fails `isValidState` and loses before the field
merge runs. -/
def emptyQuizState : QuizState :=
  ⟨none, none, none, none, none, none⟩

/-- `mergeStates` of the source: an invalid side loses outright,
otherwise the field-level merge runs on the two (then necessarily
present) states. -/
def mergeStates (now : Nat) (existingState incomingState : Option QuizState) : Option QuizState :=
  if isValidState existingState = false then incomingState
  else if isValidState incomingState = false then existingState
  else some (mergeValidStates now (existingState.getD emptyQuizState)
    (incomingState.getD emptyQuizState))

/-- The two persistence slot keys of a bank, `storageKeys` of the source. -/
structure Keys where
  primary : String
  backup : String
deriving DecidableEq, Repr

/-- `storageKeys` of the source. -/
def storageKeys (bankId : String) : Keys :=
  let base := "quizProgress_v2:" ++ bankId
  { primary := base, backup := base ++ "__backup" }

/-- The content of one persistence slot as `tryParse` classifies it:
text that parses to an object (carrying the parsed value), or text that
fails to parse or parses to a primitive or null. -/
inductive Raw (V : Type) where
  | obj (v : V)
  | nonObj
deriving DecidableEq, Repr

/-- The persistence layer: a map from keys to slot contents, `none` for
an absent key. -/
abbrev Storage (V : Type) :=
  String → Option (Raw V)

/-- `tryParse` of the source's `loadState`: the parsed value when the
slot holds object-parsing text, else null. -/
def tryParse {V : Type} : Option (Raw V) → Option V
  | some (.obj v) => some v
  | _ => none

/-- `localStorage.setItem` wrapped in the source's try/catch: the write
oracle says whether writing a key succeeds (a quota failure is caught
and leaves the storage unchanged). -/
def setItem {V : Type} (writeOk : String → Bool) (st : Storage V) (k : String) (v : V) :
    Storage V :=
  if writeOk k then fun q => if q = k then some (.obj v) else st q else st

/-- `loadState` of the source: read primary, fall back to backup, and
on a backup hit attempt to self-heal primary before returning.  Returns
the loaded value and the storage after the optional heal write. -/
def loadState {V : Type} (writeOk : String → Bool) (st : Storage V) (bankId : String) :
    Option V × Storage V :=
  let keys := storageKeys bankId
  match tryParse (st keys.primary) with
  | some primary => (some primary, st)
  | none =>
    match tryParse (st keys.backup) with
    | some backup => (some backup, setItem writeOk st keys.primary backup)
    | none => (none, st)

/-- `saveState` of the source: write primary, then write backup, each
write independently guarded by its own try/catch; the function is total,
a failed write simply leaves that slot untouched. -/
def saveState {V : Type} (writeOk : String → Bool) (st : Storage V) (bankId : String) (state : V) :
    Storage V :=
  let keys := storageKeys bankId
  let st1 := setItem writeOk st keys.primary state
  setItem writeOk st1 keys.backup state

/-- `setMode` of the source: a pure field assignment. -/
def setMode (s : QuizState) (m : String) : QuizState :=
  { s with mode := some m }

/-- `setActiveIndex` of the source: write the cursor belonging to the
current mode. -/
def setActiveIndex (s : QuizState) (idx : Int) : QuizState :=
  if s.mode = some "wrong" then { s with currentIndexWrong := some idx }
  else { s with currentIndexAll := some idx }

/-- The `toggleModeBtn` click handler of the source: leave wrong mode,
or enter it and reset the wrong cursor to 0. -/
def toggleModeClick (s : QuizState) : QuizState :=
  if s.mode = some "wrong" then setMode s "all"
  else { setMode s "wrong" with currentIndexWrong := some 0 }

/-- `buildWrongIds` of the source: the ordered subsequence of
`questionIds` whose record is flagged wrong. -/
def buildWrongIds (s : QuizState) : List String :=
  (s.questionIds.getD []).filter
    (fun qid => match lookupRec (s.answers.getD []) qid with
      | some r => decide (r.correct = some false)
      | none => false)

/-- Deep equality of two answer maps (JS deep-equal ignores key order,
so the maps are compared extensionally). -/
def answersDeepEq :
    Option (List (String × AnswerRecord)) → Option (List (String × AnswerRecord)) → Prop
  | some a, some b => ∀ k, lookupRec a k = lookupRec b k
  | none, none => True
  | _, _ => False

/-- Deep equality of two quiz states. -/
def stateDeepEq (a b : QuizState) : Prop :=
  a.version = b.version ∧ a.mode = b.mode ∧ a.currentIndexAll = b.currentIndexAll ∧
    a.currentIndexWrong = b.currentIndexWrong ∧ a.questionIds = b.questionIds ∧
    answersDeepEq a.answers b.answers

/-- Deep equality of two possibly-null quiz states. -/
def optDeepEq : Option QuizState → Option QuizState → Prop
  | some a, some b => stateDeepEq a b
  | none, none => True
  | _, _ => False

/-- Folding a function that fixes the accumulator on every list element
leaves the accumulator unchanged. -/
theorem foldl_self {α β : Type} (f : β → α → β) (b : β) :
    ∀ l : List α, (∀ a ∈ l, f b a = b) → l.foldl f b = b := by
  intro l
  induction l with
  | nil => intro _; rfl
  | cons x xs ih =>
    intro h
    have hx : f b x = b := h x (List.mem_cons_self x xs)
    simp only [List.foldl_cons, hx]
    exact ih (fun a ha => h a (List.mem_cons_of_mem x ha))

/-- Characterization of the `questionIds` merge loop: the existing list
is kept as a prefix, and the appended suffix is exactly the incoming ids
not already present, without duplicates and in incoming relative order. -/
theorem mergeQuestionIds_spec :
    ∀ incoming existing : List String, ∃ rest,
      mergeQuestionIds existing incoming = existing ++ rest ∧
      rest.Sublist incoming ∧ rest.Nodup ∧
      (∀ x, x ∈ rest ↔ x ∈ incoming ∧ x ∉ existing) := by
  intro incoming
  induction incoming with
  | nil =>
    intro existing
    exact ⟨[], by simp [mergeQuestionIds], List.nil_sublist _, List.nodup_nil, by simp⟩
  | cons q inc ih =>
    intro existing
    by_cases hq : q ∈ existing
    · obtain ⟨rest, h1, h2, h3, h4⟩ := ih existing
      refine ⟨rest, ?_, h2.cons q, h3, ?_⟩
      · simpa [mergeQuestionIds, hq] using h1
      · intro x
        rw [h4 x]
        constructor
        · rintro ⟨hxi, hxe⟩
          exact ⟨List.mem_cons_of_mem q hxi, hxe⟩
        · rintro ⟨hxq, hxe⟩
          rcases List.mem_cons.mp hxq with rfl | hxi
          · exact absurd hq hxe
          · exact ⟨hxi, hxe⟩
    · obtain ⟨rest, h1, h2, h3, h4⟩ := ih (existing ++ [q])
      refine ⟨q :: rest, ?_, h2.cons₂ q, ?_, ?_⟩
      · have : mergeQuestionIds existing (q :: inc) = mergeQuestionIds (existing ++ [q]) inc := by
          simp [mergeQuestionIds, hq]
        rw [this, h1, List.append_assoc]
        rfl
      · refine List.nodup_cons.mpr ⟨?_, h3⟩
        intro hqr
        have := (h4 q).mp hqr
        exact this.2 (by simp)
      · intro x
        constructor
        · intro hx
          rcases List.mem_cons.mp hx with rfl | hxr
          · exact ⟨List.mem_cons_self x inc, hq⟩
          · have := (h4 x).mp hxr
            refine ⟨List.mem_cons_of_mem q this.1, fun hxe => this.2 ?_⟩
            exact List.mem_append.mpr (Or.inl hxe)
        · rintro ⟨hxq, hxe⟩
          rcases List.mem_cons.mp hxq with rfl | hxi
          · exact List.mem_cons_self x rest
          · by_cases hxq2 : x = q
            · subst hxq2; exact List.mem_cons_self x rest
            · refine List.mem_cons_of_mem q ((h4 x).mpr ⟨hxi, ?_⟩)
              intro hmem
              rcases List.mem_append.mp hmem with h | h
              · exact hxe h
              · exact hxq2 (by simpa using h)

/-- In an association list with unique keys, two entries with the same
key coincide. -/
theorem keyUnique {l : List (String × AnswerRecord)} (hnd : (l.map Prod.fst).Nodup)
    {p q : String × AnswerRecord} (hp : p ∈ l) (hq : q ∈ l) (hk : p.1 = q.1) : p = q := by
  induction l with
  | nil => cases hp
  | cons a rest ih =>
    rw [List.map_cons, List.nodup_cons] at hnd
    rcases List.mem_cons.mp hp with rfl | hp2
    · rcases List.mem_cons.mp hq with rfl | hq2
      · rfl
      · exact absurd (hk ▸ List.mem_map_of_mem Prod.fst hq2) hnd.1
    · rcases List.mem_cons.mp hq with rfl | hq2
      · exact absurd (hk ▸ List.mem_map_of_mem Prod.fst hp2) hnd.1
      · exact ih hnd.2 hp2 hq2

/-- Looking up the key of a member entry in a unique-key association
list returns that entry's value. -/
theorem lookupRec_of_mem {l : List (String × AnswerRecord)} (hnd : (l.map Prod.fst).Nodup)
    {k : String} {v : AnswerRecord} (hm : (k, v) ∈ l) : lookupRec l k = some v := by
  induction l with
  | nil => cases hm
  | cons a rest ih =>
    rw [List.map_cons, List.nodup_cons] at hnd
    by_cases ha : a.1 = k
    · have : a = (k, v) := keyUnique (by rw [List.map_cons, List.nodup_cons]; exact hnd)
        (List.mem_cons_self a rest) hm ha
      simp [lookupRec, List.find?_cons, ha, this]
    · rcases List.mem_cons.mp hm with heq | hm2
      · exact absurd (by rw [← heq]) ha
      · have := ih hnd.2 hm2
        simpa [lookupRec, List.find?_cons, ha] using this

/-- Re-assigning a key of a unique-key association list to the value it
already holds leaves the list unchanged. -/
theorem setRec_self {l : List (String × AnswerRecord)} (hnd : (l.map Prod.fst).Nodup)
    {k : String} {v : AnswerRecord} (hm : (k, v) ∈ l) : setRec l k v = l := by
  have hany : l.any (fun p => decide (p.1 = k)) = true := by
    refine List.any_eq_true.mpr ⟨(k, v), hm, by simp⟩
  rw [setRec, if_pos hany]
  have : ∀ p ∈ l, (if p.1 = k then (k, v) else p) = p := by
    intro p hp
    by_cases hpk : p.1 = k
    · have : p = (k, v) := keyUnique hnd hp hm hpk
      simp [hpk, this]
    · simp [hpk]
  calc l.map (fun p => if p.1 = k then (k, v) else p) = l.map id := List.map_congr_left this
    _ = l := List.map_id l

/-- Merging a record with itself returns it unchanged, provided a wrong
record carries a nonzero numeric timestamp (otherwise the wrong-union
branch rebuilds the timestamp from `Date.now()`). -/
theorem mergeAnswerRecord_self (now : Nat) (r : AnswerRecord)
    (h : r.correct = some false → tsNum r ≠ 0) :
    mergeAnswerRecord now (some r) (some r) = some r := by
  cases r with
  | mk resp corr ts =>
    by_cases hc : corr = some false
    · have ht : tsNum ⟨resp, corr, ts⟩ ≠ 0 := h (by simp [hc])
      cases ts with
      | none => exact absurd (show tsNum ⟨resp, corr, none⟩ = (0 : Nat) from rfl) ht
      | some t =>
        have ht' : t ≠ 0 := by simpa [tsNum] using ht
        simp [mergeAnswerRecord, hc, tsNum, Nat.max_self, ht']
    · simp [mergeAnswerRecord, hc]

/-- `sortLetters` depends only on the multiset of characters of its
input: permuted inputs normalize identically. -/
theorem sortLetters_perm_congr {s t : String} (h : s.toList.Perm t.toList) :
    sortLetters s = sortLetters t := by
  unfold sortLetters
  congr 1
  refine List.eq_of_perm_of_sorted ?_ (List.sorted_insertionSort _ _)
    (List.sorted_insertionSort _ _)
  exact ((List.perm_insertionSort _ _).trans (((h.map Char.toUpper)).filter _)).trans
    (List.perm_insertionSort _ _).symm

/-- The primary and backup slot keys of a bank are distinct. -/
theorem storageKeys_primary_ne_backup (bankId : String) :
    (storageKeys bankId).primary ≠ (storageKeys bankId).backup := by
  intro h
  have hlen := congrArg String.length h
  have h8 : ("__backup" : String).length = 8 := rfl
  simp only [storageKeys, String.length_append, h8] at hlen
  omega

/-- C1: wrong-stickiness of merge: for any two answer records for the
same question where at least one has `correct === false`, the merged
record is flagged wrong, regardless of which side carries the larger
timestamp. -/
theorem c1_merge_wrong_sticky (now : Nat) (e i : AnswerRecord)
    (h : e.correct = some false ∨ i.correct = some false) :
    ∃ r, mergeAnswerRecord now (some e) (some i) = some r ∧ r.correct = some false := by
  by_cases he : e.correct = some false
  · refine ⟨⟨e.response, some false,
      some (if max (tsNum e) (tsNum i) = 0 then now else max (tsNum e) (tsNum i))⟩, ?_, rfl⟩
    simp [mergeAnswerRecord, he]
  · have hi : i.correct = some false := h.resolve_left he
    refine ⟨⟨i.response, some false,
      some (if max (tsNum e) (tsNum i) = 0 then now else max (tsNum e) (tsNum i))⟩, ?_, rfl⟩
    simp [mergeAnswerRecord, he, hi]

/-- Witness for C1: an existing wrong record beats a newer correct
incoming record; the merge stays wrong. -/
theorem c1_merge_wrong_sticky_witness :
    ((⟨.str "A", some false, some 3⟩ : AnswerRecord).correct = some false ∨
      (⟨.str "B", some true, some 9⟩ : AnswerRecord).correct = some false) ∧
    ∃ r, mergeAnswerRecord 7 (some ⟨.str "A", some false, some 3⟩)
        (some ⟨.str "B", some true, some 9⟩) = some r ∧ r.correct = some false :=
  ⟨by decide, c1_merge_wrong_sticky 7 ⟨.str "A", some false, some 3⟩
    ⟨.str "B", some true, some 9⟩ (by decide)⟩

/-- The multiple-choice question of the spec's grading examples. -/
def qBCA : Question := { type := "multiple", answer := some "BCA" }

/-- A multiple-choice question whose canonical answer is empty. -/
def qEmptyAns : Question := { type := "multiple", answer := some "" }

/-- C2 counterexample: the duplicate-entry example of the claim grades
false (the source's `sortLetters` keeps duplicate letters, so the
response normalizes to "AABC" while the answer normalizes to "ABC");
and for an empty canonical answer the claimed equivalence also fails,
since grading fails closed although both sides normalize identically. -/
theorem c2_counterexample :
    grade qBCA (.arr ["A", "B", "C", "A"]) = false ∧
    (grade qEmptyAns (.arr []) = false ∧
      sortLetters (String.join []) = sortLetters (qEmptyAns.answer.getD "")) := by decide

/-- C2 amended: for a multiple question with a truthy (present,
non-empty) answer, grading succeeds exactly when the sorted uppercased
letter strings coincide with duplicates retained; grading is
order-insensitive (any permutation of the submitted letters grades
identically) but duplicate entries are significant, and the claim's
duplicate example grades false. -/
theorem c2_multiple_grade_amended :
    (∀ (q : Question) (resp : List String), q.type = "multiple" →
        jsFalsyAnswer q.answer = false →
        (grade q (.arr resp) = true ↔
          sortLetters (String.join resp) = sortLetters (q.answer.getD ""))) ∧
    (∀ (q : Question) (l l' : List String), q.type = "multiple" →
        (String.join l).toList.Perm (String.join l').toList →
        grade q (.arr l) = grade q (.arr l')) ∧
    grade qBCA (.arr ["C", "B", "A"]) = true ∧
    grade qBCA (.arr ["A", "B", "C", "A"]) = false := by
  refine ⟨?_, ?_, by decide, by decide⟩
  · intro q resp htype hfalsy
    simp [grade, htype, hfalsy]
  · intro q l l' htype hperm
    have hs := sortLetters_perm_congr hperm
    by_cases hfalsy : jsFalsyAnswer q.answer = true
    · simp [grade, hfalsy]
    · simp only [Bool.not_eq_true] at hfalsy
      simp [grade, htype, hfalsy, hs]

/-- Witness for C2 (amended) at the claim's order-permuted example. -/
theorem c2_multiple_grade_amended_witness :
    qBCA.type = "multiple" ∧ jsFalsyAnswer qBCA.answer = false ∧
    (grade qBCA (.arr ["C", "B", "A"]) = true ↔
      sortLetters (String.join ["C", "B", "A"]) = sortLetters (qBCA.answer.getD "")) :=
  ⟨by decide, by decide,
    c2_multiple_grade_amended.1 qBCA ["C", "B", "A"] (by decide) (by decide)⟩

/-- The existing record of the C4 counterexample: wrong, older. -/
def c4ex : AnswerRecord := ⟨.str "A", some false, some 1⟩

/-- The incoming record of the C4 counterexample: wrong, newer. -/
def c4in : AnswerRecord := ⟨.str "B", some false, some 2⟩

/-- C4 counterexample: both records are wrong and the incoming one has
the strictly greater timestamp, yet the merged response is the existing
record's response "A", not the greater-timestamp record's "B" (the
source always keeps the existing side's response when it is wrong). -/
theorem c4_counterexample :
    tsNum c4ex < tsNum c4in ∧
    mergeAnswerRecord 99 (some c4ex) (some c4in) =
      some ⟨.str "A", some false, some 2⟩ ∧
    c4in.response = .str "B" ∧ Response.str "A" ≠ Response.str "B" := by decide

/-- C4 amended: when both records are wrong the merged record keeps the
existing record's response, is flagged wrong, and carries the maximum of
the two coerced timestamps (or `Date.now()` when that maximum is 0). -/
theorem c4_both_wrong_amended (now : Nat) (e i : AnswerRecord)
    (he : e.correct = some false) (hi : i.correct = some false) :
    mergeAnswerRecord now (some e) (some i) =
      some { response := e.response, correct := some false,
             ts := some (if max (tsNum e) (tsNum i) = 0 then now
               else max (tsNum e) (tsNum i)) } := by
  simp [mergeAnswerRecord, he, hi]

/-- Witness for C4 (amended) at the counterexample records. -/
theorem c4_both_wrong_amended_witness :
    c4ex.correct = some false ∧ c4in.correct = some false ∧
    mergeAnswerRecord 99 (some c4ex) (some c4in) =
      some { response := c4ex.response, correct := some false,
             ts := some (if max (tsNum c4ex) (tsNum c4in) = 0 then 99
               else max (tsNum c4ex) (tsNum c4in)) } :=
  ⟨by decide, by decide, c4_both_wrong_amended 99 c4ex c4in (by decide) (by decide)⟩

/-- C8: the grader is total (it returns one of the two booleans on every
input) and fails closed (an empty or absent canonical answer grades
false for every response). -/
theorem c8_grade_total_fail_closed (q : Question) (r : Response) :
    (grade q r = true ∨ grade q r = false) ∧
    (jsFalsyAnswer q.answer = true → grade q r = false) := by
  constructor
  · cases h : grade q r
    · exact Or.inr rfl
    · exact Or.inl rfl
  · intro h
    simp [grade, h]

/-- Witness for C8 at a question with an absent answer. -/
theorem c8_grade_total_fail_closed_witness :
    jsFalsyAnswer (Question.answer { type := "single", answer := none }) = true ∧
    grade { type := "single", answer := none } (.str "A") = false :=
  ⟨by decide,
    (c8_grade_total_fail_closed { type := "single", answer := none } (.str "A")).2 (by decide)⟩

/-- C5: for valid states the merged `questionIds` list is the existing
list followed by exactly the incoming ids not already present, without
duplicates and in incoming relative order; and the spec's example
`["a","b"]` merged with `["b","c"]` gives `["a","b","c"]`. -/
theorem c5_merged_question_id_order (now : Nat) (e i : QuizState)
    (he : isValidState (some e) = true) (hi : isValidState (some i) = true) :
    (∃ rest, Option.bind (mergeStates now (some e) (some i)) QuizState.questionIds
        = some (e.questionIds.getD [] ++ rest) ∧
      rest.Sublist (i.questionIds.getD []) ∧ rest.Nodup ∧
      (∀ x, x ∈ rest ↔ x ∈ i.questionIds.getD [] ∧ x ∉ e.questionIds.getD [])) ∧
    mergeQuestionIds ["a", "b"] ["b", "c"] = ["a", "b", "c"] := by
  refine ⟨?_, by decide⟩
  obtain ⟨rest, h1, h2, h3, h4⟩ :=
    mergeQuestionIds_spec (i.questionIds.getD []) (e.questionIds.getD [])
  refine ⟨rest, ?_, h2, h3, h4⟩
  have hms : mergeStates now (some e) (some i) = some (mergeValidStates now e i) := by
    simp [mergeStates, he, hi]
  rw [hms]
  simp [mergeValidStates, h1]

/-- The existing state of the C5 witness, ids `["a","b"]`. -/
def c5e : QuizState := ⟨some 1, some "all", some 0, some 0, some ["a", "b"], some []⟩

/-- The incoming state of the C5 witness, ids `["b","c"]`. -/
def c5i : QuizState := ⟨some 1, some "all", some 0, some 0, some ["b", "c"], some []⟩

/-- Witness for C5 at the spec's id-order example. -/
theorem c5_merged_question_id_order_witness :
    isValidState (some c5e) = true ∧ isValidState (some c5i) = true ∧
    ((∃ rest, Option.bind (mergeStates 0 (some c5e) (some c5i)) QuizState.questionIds
        = some (c5e.questionIds.getD [] ++ rest) ∧
      rest.Sublist (c5i.questionIds.getD []) ∧ rest.Nodup ∧
      (∀ x, x ∈ rest ↔ x ∈ c5i.questionIds.getD [] ∧ x ∉ c5e.questionIds.getD [])) ∧
    mergeQuestionIds ["a", "b"] ["b", "c"] = ["a", "b", "c"]) :=
  ⟨by decide, by decide,
    c5_merged_question_id_order 0 c5e c5i (by decide) (by decide)⟩

/-- C10: when at least one of the two (possibly null) states is
structurally valid, the merge result is structurally valid. -/
theorem c10_merge_preserves_validity (now : Nat) (a b : Option QuizState)
    (h : isValidState a = true ∨ isValidState b = true) :
    isValidState (mergeStates now a b) = true := by
  cases a with
  | none =>
    have hb : isValidState b = true := by simpa [isValidState] using h
    have hms : mergeStates now none b = b := by
      rw [mergeStates, if_pos (show isValidState none = false from rfl)]
    rw [hms]
    exact hb
  | some e =>
    by_cases hae : isValidState (some e) = true
    · cases b with
      | none =>
        have hms : mergeStates now (some e) none = some e := by
          rw [mergeStates, if_neg (by rw [hae]; simp),
            if_pos (show isValidState none = false from rfl)]
        rw [hms]
        exact hae
      | some i =>
        by_cases hbi : isValidState (some i) = true
        · have hms : mergeStates now (some e) (some i) = some (mergeValidStates now e i) := by
            rw [mergeStates, if_neg (by rw [hae]; simp), if_neg (by rw [hbi]; simp)]
            simp
          rw [hms]
          simp [isValidState, mergeValidStates]
        · have hb' : isValidState (some i) = false := by simpa using hbi
          have hms : mergeStates now (some e) (some i) = some e := by
            rw [mergeStates, if_neg (by rw [hae]; simp), if_pos hb']
          rw [hms]
          exact hae
    · have ha' : isValidState (some e) = false := by simpa using hae
      have hb : isValidState b = true := h.resolve_left hae
      have hms : mergeStates now (some e) b = b := by
        rw [mergeStates, if_pos ha']
      rw [hms]
      exact hb

/-- Witness for C10: merging a valid state into a null local state. -/
theorem c10_merge_preserves_validity_witness :
    (isValidState none = true ∨ isValidState (some c5e) = true) ∧
    isValidState (mergeStates 0 none (some c5e)) = true :=
  ⟨Or.inr (by decide), c10_merge_preserves_validity 0 none (some c5e) (Or.inr (by decide))⟩

/-- Deep equality of an answer map with itself. -/
theorem answersDeepEq_refl (a : Option (List (String × AnswerRecord))) : answersDeepEq a a := by
  cases a with
  | none => trivial
  | some l => intro k; rfl

/-- Deep equality of a state with itself. -/
theorem stateDeepEq_refl (s : QuizState) : stateDeepEq s s :=
  ⟨rfl, rfl, rfl, rfl, rfl, answersDeepEq_refl s.answers⟩

/-- The C3 counterexample state with a wrong record whose timestamp is 0:
merging it with itself rebuilds the timestamp from `Date.now()`. -/
def s3a : QuizState := ⟨some 1, some "all", some 0, some 0, some ["q"],
  some [("q", ⟨.str "A", some false, some 0⟩)]⟩

/-- The C3 counterexample state with an absent `mode` field: merging it
with itself materializes `mode := "all"`. -/
def s3b : QuizState := ⟨some 1, none, some 0, some 0, some [], some []⟩

/-- The C3 counterexample state with an absent `currentIndexAll`:
merging it with itself materializes the cursor as 0. -/
def s3c : QuizState := ⟨some 1, some "all", none, some 0, some [], some []⟩

/-- C3 counterexample: three structurally valid states on which
`mergeStates(s, s)` is not deep-equal to `s`: a wrong answer record with
timestamp 0 gets its timestamp rebuilt from `Date.now()`; an absent
`mode` becomes `"all"`; an absent cursor becomes 0. -/
theorem c3_counterexample :
    (isValidState (some s3a) = true ∧
      ¬ optDeepEq (mergeStates 1700000000000 (some s3a) (some s3a)) (some s3a)) ∧
    (isValidState (some s3b) = true ∧
      ¬ optDeepEq (mergeStates 0 (some s3b) (some s3b)) (some s3b)) ∧
    (isValidState (some s3c) = true ∧
      ¬ optDeepEq (mergeStates 0 (some s3c) (some s3c)) (some s3c)) := by
  refine ⟨⟨by decide, ?_⟩, ⟨by decide, ?_⟩, ⟨by decide, ?_⟩⟩
  · have hms : mergeStates 1700000000000 (some s3a) (some s3a) =
        some ⟨some 1, some "all", some 0, some 0, some ["q"],
          some [("q", ⟨.str "A", some false, some 1700000000000⟩)]⟩ := by decide
    rw [hms]
    intro hdeep
    have h6 := hdeep.2.2.2.2.2 "q"
    exact absurd h6 (by decide)
  · have hms : mergeStates 0 (some s3b) (some s3b) =
        some ⟨some 1, some "all", some 0, some 0, some [], some []⟩ := by decide
    rw [hms]
    intro hdeep
    exact absurd hdeep.2.1 (by decide)
  · have hms : mergeStates 0 (some s3c) (some s3c) =
        some ⟨some 1, some "all", some 0, some 0, some [], some []⟩ := by decide
    rw [hms]
    intro hdeep
    exact absurd hdeep.2.2.1 (by decide)

/-- C3 amended: merge is idempotent (up to deep equality, indeed up to
equality) on every structurally valid state whose `mode` is a present
non-empty string, whose two cursors are present finite numbers, whose
answer keys are unique (as a JS object guarantees), and whose wrong
records carry a nonzero numeric timestamp. -/
theorem c3_merge_idempotent_amended (now : Nat) (s : QuizState)
    (hv : isValidState (some s) = true)
    (hmo : strTruthy s.mode = true)
    (hca : s.currentIndexAll.isSome = true)
    (hcw : s.currentIndexWrong.isSome = true)
    (hnd : ((s.answers.getD []).map Prod.fst).Nodup)
    (hts : ∀ p ∈ s.answers.getD [], p.2.correct = some false → tsNum p.2 ≠ 0) :
    mergeStates now (some s) (some s) = some s ∧
    optDeepEq (mergeStates now (some s) (some s)) (some s) := by
  obtain ⟨ver, mo, cia, ciw, qidsO, ansO⟩ := s
  simp only [isValidState, Bool.and_eq_true, decide_eq_true_eq,
    Option.isSome_iff_exists] at hv
  obtain ⟨⟨hver, qs, hqs⟩, al, hal⟩ := hv
  subst hver hqs hal
  simp only [Option.getD_some] at hnd hts
  obtain ⟨na, hna⟩ := Option.isSome_iff_exists.mp hca
  obtain ⟨nw, hnw⟩ := Option.isSome_iff_exists.mp hcw
  simp only at hna hnw
  subst hna hnw
  have heq : mergeValidStates now ⟨some 1, mo, some na, some nw, some qs, some al⟩
      ⟨some 1, mo, some na, some nw, some qs, some al⟩ =
      ⟨some 1, mo, some na, some nw, some qs, some al⟩ := by
    have hqids : mergeQuestionIds qs qs = qs :=
      foldl_self _ qs qs (fun q hq => if_pos hq)
    have hans : al.foldl
        (fun acc p =>
          match mergeAnswerRecord now (lookupRec acc p.1) (some p.2) with
          | some r => setRec acc p.1 r
          | none => acc) al = al := by
      refine foldl_self _ al al (fun p hp => ?_)
      have hmem : (p.1, p.2) ∈ al := by simpa using hp
      have hlook : lookupRec al p.1 = some p.2 := lookupRec_of_mem hnd hmem
      have hself : mergeAnswerRecord now (some p.2) (some p.2) = some p.2 :=
        mergeAnswerRecord_self now p.2 (hts p hp)
      simp only [hlook, hself]
      exact setRec_self hnd hmem
    simp [mergeValidStates, hqids, hans, hmo]
  have hms : mergeStates now (some ⟨some 1, mo, some na, some nw, some qs, some al⟩)
      (some ⟨some 1, mo, some na, some nw, some qs, some al⟩) =
      some ⟨some 1, mo, some na, some nw, some qs, some al⟩ := by
    rw [mergeStates]
    simp only [isValidState, Option.isSome_some, Bool.and_true, decide_eq_true_eq]
    simp [heq]
  refine ⟨hms, ?_⟩
  rw [hms]
  exact stateDeepEq_refl _

/-- A well-behaved state: answered once correctly, once wrongly, both
with nonzero timestamps. -/
def c3w : QuizState := ⟨some 1, some "all", some 2, some 0, some ["q1", "q2"],
  some [("q1", ⟨.str "A", some true, some 5⟩), ("q2", ⟨.arr ["A", "C"], some false, some 6⟩)]⟩

/-- Witness for C3 (amended) at a well-behaved concrete state. -/
theorem c3_merge_idempotent_amended_witness :
    isValidState (some c3w) = true ∧ strTruthy c3w.mode = true ∧
    c3w.currentIndexAll.isSome = true ∧ c3w.currentIndexWrong.isSome = true ∧
    ((c3w.answers.getD []).map Prod.fst).Nodup ∧
    (∀ p ∈ c3w.answers.getD [], p.2.correct = some false → tsNum p.2 ≠ 0) ∧
    (mergeStates 7 (some c3w) (some c3w) = some c3w ∧
      optDeepEq (mergeStates 7 (some c3w) (some c3w)) (some c3w)) :=
  ⟨by decide, by decide, by decide, by decide, by decide, by decide,
    c3_merge_idempotent_amended 7 c3w (by decide) (by decide) (by decide) (by decide)
      (by decide) (by decide)⟩

/-- C6: `loadState` returns the parsed primary slot when it parses;
when the primary slot is missing or unparsable and the backup parses,
it returns the backup's content and (when the write succeeds, the
source catching a write failure) rewrites the primary slot so that a
subsequent read of primary yields the healed value. -/
theorem c6_load_fallback_self_heal {V : Type} (writeOk : String → Bool) (st : Storage V)
    (bankId : String) :
    (∀ p, tryParse (st (storageKeys bankId).primary) = some p →
      loadState writeOk st bankId = (some p, st)) ∧
    (∀ v, tryParse (st (storageKeys bankId).primary) = none →
      tryParse (st (storageKeys bankId).backup) = some v →
      (loadState writeOk st bankId).1 = some v ∧
      (writeOk (storageKeys bankId).primary = true →
        tryParse ((loadState writeOk st bankId).2 (storageKeys bankId).primary) = some v)) := by
  constructor
  · intro p hp
    simp [loadState, hp]
  · intro v hp hb
    constructor
    · simp [loadState, hp, hb]
    · intro hw
      simp only [loadState, hp, hb]
      simp [setItem, hw, tryParse]

/-- A storage with an unparsable primary slot and an intact backup slot
for bank "bank1". -/
def c6store : Storage Nat := fun k =>
  if k = (storageKeys "bank1").primary then some Raw.nonObj
  else if k = (storageKeys "bank1").backup then some (Raw.obj 42) else none

/-- Witness for C6: the corrupted primary falls back to the backup and
primary is healed. -/
theorem c6_load_fallback_self_heal_witness :
    tryParse (c6store (storageKeys "bank1").primary) = none ∧
    tryParse (c6store (storageKeys "bank1").backup) = some 42 ∧
    ((loadState (fun _ => true) c6store "bank1").1 = some 42 ∧
      ((fun _ => true) (storageKeys "bank1").primary = true →
        tryParse ((loadState (fun _ => true) c6store "bank1").2 (storageKeys "bank1").primary)
          = some 42)) :=
  ⟨by decide, by decide,
    (c6_load_fallback_self_heal (fun _ => true) c6store "bank1").2 42 (by decide) (by decide)⟩

/-- C7: `saveState` attempts both slot writes independently: a
succeeding primary write lands even when the backup write fails and
vice versa, and keys of other banks are untouched.  The function is
total: a failed write is caught and leaves that slot unchanged, so no
failure escapes to the caller. -/
theorem c7_save_independent_slots {V : Type} (writeOk : String → Bool) (st : Storage V)
    (bankId : String) (state : V) :
    (writeOk (storageKeys bankId).primary = true →
      saveState writeOk st bankId state (storageKeys bankId).primary = some (Raw.obj state)) ∧
    (writeOk (storageKeys bankId).backup = true →
      saveState writeOk st bankId state (storageKeys bankId).backup = some (Raw.obj state)) ∧
    (∀ k, k ≠ (storageKeys bankId).primary → k ≠ (storageKeys bankId).backup →
      saveState writeOk st bankId state k = st k) := by
  have hne := storageKeys_primary_ne_backup bankId
  refine ⟨?_, ?_, ?_⟩
  · intro hw
    by_cases hb : writeOk (storageKeys bankId).backup
    · simp [saveState, setItem, hw, hb, hne]
    · simp [saveState, setItem, hw, hb]
  · intro hw
    simp [saveState, setItem, hw]
  · intro k hk1 hk2
    by_cases hb : writeOk (storageKeys bankId).backup
    · by_cases hp : writeOk (storageKeys bankId).primary
      · simp [saveState, setItem, hb, hp, hk1, hk2]
      · simp [saveState, setItem, hb, hp, hk1, hk2]
    · by_cases hp : writeOk (storageKeys bankId).primary
      · simp [saveState, setItem, hb, hp, hk1, hk2]
      · simp [saveState, setItem, hb, hp, hk1, hk2]

/-- A write oracle under which the primary slot write of bank "bank1"
fails (as on a storage-quota error) while every other write succeeds. -/
def c7wOk : String → Bool := fun k => decide (k ≠ (storageKeys "bank1").primary)

/-- An empty storage. -/
def c7st : Storage Nat := fun _ => none

/-- Witness for C7: the backup write still lands although the primary
write fails. -/
theorem c7_save_independent_slots_witness :
    c7wOk (storageKeys "bank1").backup = true ∧
    saveState c7wOk c7st "bank1" 5 (storageKeys "bank1").backup = some (Raw.obj 5) :=
  ⟨by decide, (c7_save_independent_slots c7wOk c7st "bank1" 5).2.1 (by decide)⟩

/-- C9: entering wrong mode resets the wrong cursor to 0 and leaves the
all cursor unchanged; leaving it is a pure mode assignment; a double
toggle preserves the all cursor; and `setActiveIndex` writes only the
cursor of the current mode. -/
theorem c9_mode_cursor_independence (s : QuizState) (idx : Int) :
    (s.mode = some "wrong" →
      toggleModeClick s = setMode s "all" ∧
      (toggleModeClick s).currentIndexAll = s.currentIndexAll ∧
      (toggleModeClick s).currentIndexWrong = s.currentIndexWrong) ∧
    (s.mode ≠ some "wrong" →
      (toggleModeClick s).mode = some "wrong" ∧
      (toggleModeClick s).currentIndexWrong = some 0 ∧
      (toggleModeClick s).currentIndexAll = s.currentIndexAll) ∧
    (toggleModeClick (toggleModeClick s)).currentIndexAll = s.currentIndexAll ∧
    (s.mode = some "wrong" →
      (setActiveIndex s idx).currentIndexWrong = some idx ∧
      (setActiveIndex s idx).currentIndexAll = s.currentIndexAll) ∧
    (s.mode ≠ some "wrong" →
      (setActiveIndex s idx).currentIndexAll = some idx ∧
      (setActiveIndex s idx).currentIndexWrong = s.currentIndexWrong) := by
  by_cases hm : s.mode = some "wrong"
  · simp [toggleModeClick, setActiveIndex, setMode, hm]
  · simp [toggleModeClick, setActiveIndex, setMode, hm]

/-- A state in all mode with distinct cursor values. -/
def c9s : QuizState := ⟨some 1, some "all", some 4, some 2, some ["a"], some []⟩

/-- Witness for C9: toggling into wrong mode from a concrete all-mode
state resets the wrong cursor, keeps the all cursor, and a double
toggle preserves the all cursor. -/
theorem c9_mode_cursor_independence_witness :
    c9s.mode ≠ some "wrong" ∧
    ((toggleModeClick c9s).mode = some "wrong" ∧
      (toggleModeClick c9s).currentIndexWrong = some 0 ∧
      (toggleModeClick c9s).currentIndexAll = c9s.currentIndexAll) ∧
    (toggleModeClick (toggleModeClick c9s)).currentIndexAll = c9s.currentIndexAll :=
  ⟨by decide, (c9_mode_cursor_independence c9s 0).2.1 (by decide),
    (c9_mode_cursor_independence c9s 0).2.2.1⟩

end QuizApp
